import Mathlib

/-!
Verification of the pygrader Grading Session Engine.

This file shallowly embeds the grading driver (`grade.py`) and the rubric
construction (`common/hw_base.py`) of the pygrader repository, and proves
properties of the embedded operations.  Python dictionaries are modelled as
association lists (JSON objects preserve insertion order and have unique
keys), machine-level effects (printing, the interactive shell) are dropped,
and the interactive TA input stream is passed in explicitly.  The class
`common.grades.Grades` and the helper `common.utils.run_and_prompt` are not
part of the sources; they are modelled from the specification where noted.
-/

namespace Pygrader

/-- Association-list lookup, modelling Python `dict` indexing / `in`. -/
def lookupA {α : Type} : List (String × α) → String → Option α
  | [], _ => none
  | (k, v) :: rest, key => if k = key then some v else lookupA rest key

/-- Association-list update, modelling Python `dict` assignment: replace the
binding in place if the key is present, else append it (insertion order). -/
def updateA {α : Type} : List (String × α) → String → α → List (String × α)
  | [], key, v => [(key, v)]
  | (k, w) :: rest, key, v =>
    if k = key then (k, v) :: rest else (k, w) :: updateA rest key v

/-- Python `str.lower`, on the character list (ASCII case mapping). -/
def pyLower (s : String) : String :=
  ⟨s.data.map Char.toLower⟩

/-- Python `str.upper`, on the character list (ASCII case mapping). -/
def pyUpper (s : String) : String :=
  ⟨s.data.map Char.toUpper⟩

/-- Python `str.strip` with no argument: drop leading and trailing
whitespace. -/
def pyStrip (s : String) : String :=
  ⟨((s.data.dropWhile Char.isWhitespace).reverse.dropWhile
      Char.isWhitespace).reverse⟩

/-- A grade record for one subitem: `award` (boolean) and `comments` (text). -/
structure GradeRecord where
  award : Bool
  comments : String
deriving DecidableEq

/-- Modelled from the spec: `common/grades.py` (class `Grades`) is not under
src/.  Spec §3/§4.2: records are keyed by subitem code for the one submitter
of the session; a subitem is graded iff a record exists; indexed writes create
the record if absent; `set_late` ORs into the per-submitter late flag;
`synchronize` durably flushes the state and is the identity on the abstract
in-memory state. -/
structure Grades where
  records : List (String × GradeRecord)
  late : Bool
deriving DecidableEq

/-- Modelled from the spec: `Grades.is_graded` — true iff a record exists. -/
def is_graded (g : Grades) (code : String) : Bool :=
  (lookupA g.records code).isSome

/-- Modelled from the spec: indexed read of a record, creating-on-write
semantics are given by `setAward`/`setComments`. -/
def getRecord (g : Grades) (code : String) : GradeRecord :=
  (lookupA g.records code).getD { award := false, comments := "" }

/-- Modelled from the spec: `grades[code]["award"] = b`. -/
def setAward (g : Grades) (code : String) (b : Bool) : Grades :=
  { g with records := updateA g.records code { getRecord g code with award := b } }

/-- Modelled from the spec: `grades[code]["comments"] = c`. -/
def setComments (g : Grades) (code : String) (c : String) : Grades :=
  { g with records := updateA g.records code { getRecord g code with comments := c } }

/-- Modelled from the spec: `Grades.set_late` ORs into the late flag. -/
def set_late (g : Grades) (b : Bool) : Grades :=
  { g with late := g.late || b }

/-- A Python value returned by a tester/pretester callable: `None`, a list of
`(award, comment)` pairs, or an arbitrary gradable artifact of type `γ`. -/
inductive PyVal (γ : Type) where
  | pynone
  | pylist (l : List (String × String))
  | pyother (g : γ)
deriving DecidableEq

/-- A tester/pretester callable bound on the homework object: the fallback
`HW.default_grader` (opens an interactive shell and returns `None`), a
callable that raises, or a callable returning a value. -/
inductive PyFun (γ : Type) where
  | defaultGrader
  | raises
  | ret (v : PyVal γ)
deriving DecidableEq

/-- Invoking a callable: `default_grader` returns `None` (its shell is an
external effect); `raises` raises; `ret v` returns `v`. -/
def runFun {γ : Type} : PyFun γ → Except Unit (PyVal γ)
  | .defaultGrader => .ok .pynone
  | .raises => .error ()
  | .ret v => .ok v

/-- Modelled from the spec: `common/utils.py` (`run_and_prompt`) is not under
src/.  The wrapper runs the check callback; its operator re-run interaction is
not state-observable, and an exception from the callback propagates to the
caller (`grade_item` catches it). -/
def run_and_prompt {α : Type} (f : Except Unit α) : Except Unit α := f

/-- `RubricItem` from `common/hw_base.py`: code, optional deductive pool,
ordered `(points, description)` subitems, bound tester and pretester. -/
structure RubricItem (γ : Type) where
  code : String
  deduct_from : Option Int
  subitems : List (Int × String)
  tester : PyFun γ
  pretester : Option (PyFun γ) := none
deriving DecidableEq

/-- The subitem grade key `f"{code}.{i}"` (1-indexed `i`). -/
def subCode (code : String) (i : Nat) : String :=
  code ++ "." ++ toString i

/-- Observable session events recorded by the embedding: a tester invocation,
a pretester invocation, or one interactive grade prompt for a subitem. -/
inductive Event where
  | testerRun (code : String)
  | pretesterRun (code : String)
  | prompted (subitem_code : String)
deriving DecidableEq

/-- Result of a session step: normal return, an uncaught Python exception
(carrying the state at the raise), or blocking forever on interactive input
that never becomes acceptable. -/
inductive Outcome (α : Type) where
  | ok (a : α)
  | err (msg : String) (a : α)
  | hang
deriving DecidableEq

/-- The award-input loop of `prompt_grade`: keep reading until the stripped,
lowercased answer is "y" or "n"; `none` when the input stream never yields an
acceptable answer (the Python loop never exits). -/
def read_award : List String → Option String
  | [] => none
  | s :: rest =>
    let a := pyLower (pyStrip s)
    if a = "y" || a = "n" then some a else read_award rest

/-- The interactive per-subitem loop of `prompt_grade`: for the `i`-th subitem
(1-indexed) take one `(award attempts, comment)` entry from the TA input,
store `award == "y"` and the stripped comment. -/
def prompt_subitems (code : String) :
    Nat → List (Int × String) → List (List String × String) → Grades →
      List Event → Outcome (Grades × List Event)
  | _, [], _, g, tr => .ok (g, tr)
  | _, _ :: _, [], _, _ => .hang
  | i, _ :: subs, (attempts, com) :: ins, g, tr =>
    let sc := subCode code i
    match read_award attempts with
    | none => .hang
    | some a =>
      prompt_subitems code (i + 1) subs ins
        (setComments (setAward g sc (a == "y")) sc (pyStrip com))
        (tr ++ [.prompted sc])

/-- The autograde loop of `prompt_grade`: for the `i`-th pair `(a, c)`
(1-indexed) store `award := (a == "y")` and the comment verbatim. -/
def applyAutogrades (code : String) : Nat → List (String × String) → Grades → Grades
  | _, [], g => g
  | i, (a, c) :: rest, g =>
    let sc := subCode code i
    applyAutogrades code (i + 1) rest (setComments (setAward g sc (a == "y")) sc c)

/-- `Grader.prompt_grade`: with a truthy `autogrades` list, raise when its
length differs from the subitem count, else apply it; with `None` or an empty
list (both falsy in Python) prompt interactively.  `synchronize` follows and
is the identity on the abstract state. -/
def prompt_grade {γ : Type} (item : RubricItem γ)
    (autogrades : Option (List (String × String)))
    (ta : List (List String × String)) (g : Grades) (tr : List Event) :
    Outcome (Grades × List Event) :=
  match autogrades with
  | some l =>
    if l.isEmpty then
      prompt_subitems item.code 1 item.subitems ta g tr
    else if l.length ≠ item.subitems.length then
      .err "Autogrades do not align with rubric item!" (g, tr)
    else
      .ok (applyAutogrades item.code 1 l g, tr)
  | none => prompt_subitems item.code 1 item.subitems ta g tr

/-- Dispatch of the tester result into `prompt_grade`.  A gradable artifact in
tester position is truthy but has no `len`, so `prompt_grade` raises; this is
the committed model of Python `len()` on a non-sequence. -/
def pgDispatch {γ : Type} (item : RubricItem γ) (v : PyVal γ)
    (ta : List (List String × String)) (g : Grades) (tr : List Event) :
    Outcome (Grades × List Event) :=
  match v with
  | .pynone => prompt_grade item none ta g tr
  | .pylist l => prompt_grade item (some l) ta g tr
  | .pyother _ => .err "TypeError: object has no len" (g, tr)

/-- The run-mode flags of the session (`env` dict in `grade.py`). -/
structure EnvFlags where
  test_only : Bool
  grade_only : Bool
  regrade : Bool
deriving DecidableEq

/-- The mutable state of a `Grader` session: the grade store, the cached
gradables map, and the trace of observable events. -/
structure GraderState (γ : Type) where
  grades : Grades
  gradables : List (String × Option (PyVal γ))
  trace : List Event
deriving DecidableEq

/-- `Grader.should_skip_item`: skip iff test-only is off, regrade is off and
every subitem (1-indexed) already has a grade record. -/
def should_skip_item {γ : Type} (env : EnvFlags) (g : Grades)
    (item : RubricItem γ) : Bool :=
  !env.test_only && !env.regrade &&
    ((List.range item.subitems.length).all fun k =>
      is_graded g (subCode item.code (k + 1)))

/-- `Grader.collect_gradables`: cache the pretest result under the item code. -/
def collect_gradables {γ : Type} (item : RubricItem γ) (res : Option (PyVal γ))
    (st : GraderState γ) : GraderState γ :=
  { st with gradables := updateA st.gradables item.code res }

/-- The `test_wrapper` block of `Grader.grade_item`: unless grade-only, run
the pretester (pregrade mode with a pretester present) or the tester; any
exception is caught and reported.  Returns the `autogrades` value, the
`gradables` value and the extended trace. -/
def run_tests {γ : Type} (env : EnvFlags) (pregrade : Bool)
    (item : RubricItem γ) (tr : List Event) :
    PyVal γ × Option (PyVal γ) × List Event :=
  if !env.grade_only then
    match pregrade, item.pretester with
    | true, some pf =>
      match run_and_prompt (runFun pf) with
      | .ok v => (.pynone, some v, tr ++ [.pretesterRun item.code])
      | .error _ => (.pynone, none, tr ++ [.pretesterRun item.code])
    | _, _ =>
      match run_and_prompt (runFun item.tester) with
      | .ok v => (v, none, tr ++ [.testerRun item.code])
      | .error _ => (.pynone, none, tr ++ [.testerRun item.code])
  else (.pynone, none, tr)

/-- Lift a `prompt_grade` outcome (grades and trace) back into the session
state; the gradables map is untouched on this path. -/
def liftPG {γ : Type} (st : GraderState γ) :
    Outcome (Grades × List Event) → Outcome (GraderState γ)
  | .ok (g, tr) => .ok { st with grades := g, trace := tr }
  | .err m (g, tr) => .err m { st with grades := g, trace := tr }
  | .hang => .hang

/-- `Grader.grade_item`: skip fully-graded items in default mode; otherwise
run the checks, and then either cache gradables (pregrade pass, terminal),
or run the late check (ORing a late finding into the store) followed by
`prompt_grade` (default mode), or merely display grades (test-only mode). -/
def grade_item {γ : Type} (env : EnvFlags) (pregrade : Bool)
    (item : RubricItem γ) (is_late : Bool)
    (ta : List (List String × String)) (st : GraderState γ) :
    Outcome (GraderState γ) :=
  if should_skip_item env st.grades item then .ok st
  else
    let r := run_tests env pregrade item st.trace
    if pregrade then
      .ok { collect_gradables item r.2.1 st with trace := r.2.2 }
    else if !env.test_only then
      let g1 := if is_late then set_late st.grades true else st.grades
      liftPG st (pgDispatch item r.1 ta g1 r.2.2)
    else
      .ok { st with trace := r.2.2 }

/-- One item entry of the rubric description file: the fields `name`,
`points_per_subitem`, `desc_per_subitem` and the optional `deducting_from`. -/
structure RubricEntry where
  name : String
  deducting_from : Option Int
  points_per_subitem : List Int
  desc_per_subitem : List String
deriving DecidableEq

/-- A JSON value of the rubric description file: the late-penalty policy
payload (passed through untouched) or a table of item entries. -/
inductive JVal where
  | jnum (n : Int)
  | jtable (t : List (String × RubricEntry))
deriving DecidableEq

/-- A value of the in-memory rubric: the late-penalty policy passthrough, or
a table mapping item key to `RubricItem`. -/
inductive RubricVal (γ : Type) where
  | policy (v : JVal)
  | table (t : List (String × RubricItem γ))
deriving DecidableEq

/-- The homework object seen by `create_rubric`: its attribute namespace of
bound methods, looked up by exact name (`getattr`). -/
structure HWObj (γ : Type) where
  attrs : List (String × PyFun γ)
deriving DecidableEq

/-- Construction of one `RubricItem` in `HW.create_rubric`: code comes from
the entry's `name` field; subitems zip the two per-subitem arrays; the tester
is `getattr(self, "grade_" + item, self.default_grader)` and the pretester is
`getattr(self, "pre_grade_" + item, None)`. -/
def buildItem {γ : Type} (hw : HWObj γ) (item_key : String) (e : RubricEntry) :
    RubricItem γ :=
  { code := e.name
    deduct_from := e.deducting_from
    subitems := e.points_per_subitem.zip e.desc_per_subitem
    tester := (lookupA hw.attrs ("grade_" ++ item_key)).getD PyFun.defaultGrader
    pretester := lookupA hw.attrs ("pre_grade_" ++ item_key) }

/-- The inner loop of `HW.create_rubric` over one table's item entries. -/
def addItems {γ : Type} (hw : HWObj γ) (t : List (String × RubricEntry))
    (acc : List (String × RubricItem γ)) : List (String × RubricItem γ) :=
  t.foldl (fun a p => updateA a p.1 (buildItem hw p.1 p.2)) acc

/-- The outer loop of `HW.create_rubric` over the parsed JSON tables:
`late_penalty` is passed through; other keys must map to item tables. -/
def create_rubric_aux {γ : Type} (hw : HWObj γ) :
    List (String × JVal) → List (String × RubricVal γ) →
      Except String (List (String × RubricVal γ))
  | [], acc => .ok acc
  | (k, v) :: rest, acc =>
    if k = "late_penalty" then
      create_rubric_aux hw rest (updateA acc k (RubricVal.policy v))
    else
      match v with
      | .jnum _ => .error "TypeError: table value is not a mapping"
      | .jtable t =>
        let cur := match lookupA acc k with
          | some (RubricVal.table tb) => tb
          | _ => []
        create_rubric_aux hw rest (updateA acc k (RubricVal.table (addItems hw t cur)))

/-- `HW.create_rubric`, from the parsed JSON description. -/
def create_rubric {γ : Type} (hw : HWObj γ) (json : List (String × JVal)) :
    Except String (List (String × RubricVal γ)) :=
  create_rubric_aux hw json []

/-- Python `str.isalpha`: nonempty and all characters alphabetic. -/
def pyIsAlpha (s : String) : Bool :=
  !s.isEmpty && s.toList.all Char.isAlpha

/-- `Grader._check_valid_table`: the key is among the rubric's table keys. -/
def hasTable {γ : Type} (rubric : List (String × RubricVal γ)) (k : String) : Bool :=
  (lookupA rubric k).isSome

/-- The keys of the table stored under `tk`, or `none` when the stored value
is not a table (`.keys()` on a non-mapping raises). -/
def itemKeys {γ : Type} (rubric : List (String × RubricVal γ)) (tk : String) :
    Option (List String) :=
  match lookupA rubric tk with
  | some (RubricVal.table t) => some (t.map Prod.fst)
  | _ => none

/-- `Grader.grade_table`'s loop body over the items of one table; the late
check result and the TA input are supplied per item code. -/
def grade_items {γ : Type} (env : EnvFlags) (pregrade : Bool)
    (latef : String → Bool) (taf : String → List (List String × String)) :
    List (String × RubricItem γ) → GraderState γ → Outcome (GraderState γ)
  | [], st => .ok st
  | (_, it) :: rest, st =>
    match grade_item env pregrade it (latef it.code) (taf it.code) st with
    | .ok st1 => grade_items env pregrade latef taf rest st1
    | .err m st1 => .err m st1
    | .hang => .hang

/-- `Grader.grade_table`: look the table up and grade each of its items. -/
def grade_table {γ : Type} (env : EnvFlags) (pregrade : Bool)
    (latef : String → Bool) (taf : String → List (List String × String))
    (rubric : List (String × RubricVal γ)) (tk : String) (st : GraderState γ) :
    Outcome (GraderState γ) :=
  match lookupA rubric tk with
  | some (RubricVal.table t) => grade_items env pregrade latef taf t st
  | some (RubricVal.policy _) => .err "TypeError: table value is not a mapping" st
  | none => .err "KeyError" st

/-- `Grader.grade_all`: every table in declaration order, skipping the
`late_penalty` key.  The table value is taken from the iterated pair, which
agrees with the re-lookup in the source for the unique keys of a parsed JSON
object. -/
def grade_all {γ : Type} (env : EnvFlags) (pregrade : Bool)
    (latef : String → Bool) (taf : String → List (List String × String)) :
    List (String × RubricVal γ) → GraderState γ → Outcome (GraderState γ)
  | [], st => .ok st
  | (k, v) :: rest, st =>
    if k = "late_penalty" then grade_all env pregrade latef taf rest st
    else
      match (match v with
             | RubricVal.table t => grade_items env pregrade latef taf t st
             | RubricVal.policy _ =>
                 Outcome.err "TypeError: table value is not a mapping" st) with
      | .ok st1 => grade_all env pregrade latef taf rest st1
      | .err m st1 => .err m st1
      | .hang => .hang

/-- `Grader.grade`: interpret the requested rubric code as "all", a table
letter, or a full item code; validate the scope eagerly and then grade. -/
def grade {γ : Type} (env : EnvFlags) (rubric : List (String × RubricVal γ))
    (rubric_code : String) (pregrade : Bool) (latef : String → Bool)
    (taf : String → List (List String × String)) (st : GraderState γ) :
    Outcome (GraderState γ) :=
  let key := rubric_code
  if pyLower key = "all" then grade_all env pregrade latef taf rubric st
  else if pyIsAlpha key then
    let table := pyUpper key
    if hasTable rubric table then grade_table env pregrade latef taf rubric table st
    else .err ("ValueError: hw does not have table " ++ table) st
  else
    match key.toList with
    | [] => .err "IndexError: string index out of range" st
    | c :: _ =>
      let table := pyUpper (String.mk [c])
      let item := pyUpper key
      if hasTable rubric table then
        match itemKeys rubric table with
        | some ks =>
          if ks.contains item then
            match lookupA rubric table with
            | some (RubricVal.table t) =>
              match lookupA t item with
              | some it => grade_item env pregrade it (latef it.code) (taf it.code) st
              | none => .err "KeyError" st
            | _ => .err "TypeError: table value is not a mapping" st
          else .err ("ValueError: hw does not have rubric item " ++ item) st
        | none => .err "AttributeError: keys on a non-mapping" st
      else .err ("ValueError: hw does not have table " ++ table) st

/-- The grades reached by an outcome, when the run terminated (normally or
with an uncaught exception). -/
def outcomeGrades {γ : Type} : Outcome (GraderState γ) → Option Grades
  | .ok s => some s.grades
  | .err _ s => some s.grades
  | .hang => none

/-- The grades component of a `prompt_grade`-level outcome. -/
def outGrades : Outcome (Grades × List Event) → Option Grades
  | .ok p => some p.1
  | .err _ p => some p.1
  | .hang => none

/-! ### Association-list lemmas -/

theorem lookupA_updateA_self {α : Type} (m : List (String × α)) (k : String) (v : α) :
    lookupA (updateA m k v) k = some v := by
  induction m with
  | nil => simp [lookupA, updateA]
  | cons p rest ih =>
    obtain ⟨k0, w⟩ := p
    by_cases h : k0 = k
    · simp [lookupA, updateA, h]
    · simp [lookupA, updateA, h, ih]

theorem lookupA_updateA_ne {α : Type} (m : List (String × α)) (k : String) (v : α)
    (k2 : String) (h : k ≠ k2) : lookupA (updateA m k v) k2 = lookupA m k2 := by
  induction m with
  | nil => simp [lookupA, updateA, h]
  | cons p rest ih =>
    obtain ⟨k0, w⟩ := p
    by_cases h0 : k0 = k
    · subst h0
      simp [lookupA, updateA, h]
    · simp [lookupA, updateA, h0, ih]

theorem lookupA_updateA_changed {α : Type} :
    ∀ (m : List (String × α)) (k : String) (v : α) (sc : String),
      lookupA (updateA m k v) sc ≠ lookupA m sc → sc = k := by
  intro m k v sc h
  by_contra hne
  exact h (lookupA_updateA_ne m k v sc fun he => hne he.symm)

/-! ### Injectivity of the decimal representation used in subitem codes -/

/-- Accumulator lemma for the core decimal digit printer. -/
theorem toDigitsCore_acc (b : Nat) :
    ∀ (fuel n : Nat) (ds : List Char),
      Nat.toDigitsCore b fuel n ds = Nat.toDigitsCore b fuel n [] ++ ds
  | 0, _, _ => rfl
  | fuel + 1, n, ds => by
    simp only [Nat.toDigitsCore]
    by_cases h : n / b = 0
    · simp [h]
    · simp only [h, if_false]
      rw [toDigitsCore_acc b fuel (n / b) (Nat.digitChar (n % b) :: ds),
        toDigitsCore_acc b fuel (n / b) [Nat.digitChar (n % b)]]
      simp

/-- Decimal value of a digit-character list, inverse to the printer. -/
def decValAux : List Char → Nat → Nat
  | [], acc => acc
  | c :: cs, acc => decValAux cs (10 * acc + (c.toNat - 48))

theorem decValAux_append :
    ∀ (xs : List Char) (acc : Nat) (c : Char),
      decValAux (xs ++ [c]) acc = 10 * decValAux xs acc + (c.toNat - 48)
  | [], _, _ => rfl
  | x :: xs, acc, c => by
    simp only [List.cons_append, decValAux]
    exact decValAux_append xs _ c

theorem digitChar_val {d : Nat} (h : d < 10) : (Nat.digitChar d).toNat - 48 = d := by
  interval_cases d <;> rfl

theorem decValAux_toDigitsCore :
    ∀ (fuel n : Nat), n < 10 ^ fuel →
      decValAux (Nat.toDigitsCore 10 fuel n []) 0 = n := by
  intro fuel
  induction fuel with
  | zero =>
    intro n hn
    interval_cases n
    rfl
  | succ fuel ih =>
    intro n hn
    by_cases h : n / 10 = 0
    · have hlt : n < 10 := by
        by_contra hge
        push_neg at hge
        have h1 : 1 ≤ n / 10 := (Nat.one_le_div_iff (by norm_num)).2 hge
        omega
      have hstep : Nat.toDigitsCore 10 (fuel + 1) n [] = [Nat.digitChar (n % 10)] := by
        simp [Nat.toDigitsCore, h]
      rw [hstep, Nat.mod_eq_of_lt hlt]
      have hv := digitChar_val hlt
      simp only [decValAux]
      omega
    · have hdiv : n / 10 < 10 ^ fuel := by
        have hp : (10 : Nat) ^ (fuel + 1) = 10 ^ fuel * 10 := pow_succ 10 fuel
        exact (Nat.div_lt_iff_lt_mul (by norm_num)).2 (hp ▸ hn)
      have hstep : Nat.toDigitsCore 10 (fuel + 1) n []
          = Nat.toDigitsCore 10 fuel (n / 10) [] ++ [Nat.digitChar (n % 10)] := by
        simp only [Nat.toDigitsCore]
        rw [if_neg h]
        exact toDigitsCore_acc 10 fuel (n / 10) [Nat.digitChar (n % 10)]
      rw [hstep, decValAux_append, ih (n / 10) hdiv,
        digitChar_val (Nat.mod_lt n (by norm_num))]
      exact Nat.div_add_mod n 10

theorem string_data_inj {a b : String} (h : a.data = b.data) : a = b := by
  cases a
  cases b
  exact congrArg String.mk h

theorem sdata_append (a b : String) : (a ++ b).data = a.data ++ b.data := by
  cases a; cases b; rfl

theorem natRepr_inj {m n : Nat} (h : Nat.repr m = Nat.repr n) : m = n := by
  have hd : Nat.toDigits 10 m = Nat.toDigits 10 n := by
    have h2 := congrArg String.data h
    simpa [Nat.repr, List.asString] using h2
  have hm : m < 10 ^ (m + 1) :=
    lt_of_lt_of_le (Nat.lt_pow_self (by norm_num) m)
      (Nat.pow_le_pow_right (by norm_num) (Nat.le_succ m))
  have hn : n < 10 ^ (n + 1) :=
    lt_of_lt_of_le (Nat.lt_pow_self (by norm_num) n)
      (Nat.pow_le_pow_right (by norm_num) (Nat.le_succ n))
  calc m = decValAux (Nat.toDigitsCore 10 (m + 1) m []) 0 :=
          (decValAux_toDigitsCore (m + 1) m hm).symm
    _ = decValAux (Nat.toDigitsCore 10 (n + 1) n []) 0 := by
          simpa [Nat.toDigits] using congrArg (fun l => decValAux l 0) hd
    _ = n := decValAux_toDigitsCore (n + 1) n hn

theorem toString_nat_inj {i j : Nat} (h : toString i = toString j) : i = j :=
  natRepr_inj h

theorem subCode_inj (code : String) {i j : Nat}
    (h : subCode code i = subCode code j) : i = j := by
  apply toString_nat_inj
  have h2 := congrArg String.data h
  simp only [subCode, sdata_append] at h2
  have h3 := List.append_cancel_left h2
  exact string_data_inj h3

theorem subCode_ne (code : String) {i j : Nat} (h : i ≠ j) :
    subCode code i ≠ subCode code j := fun he => h (subCode_inj code he)

/-! ### Store-update lemmas -/

theorem setAward_late (g : Grades) (code : String) (b : Bool) :
    (setAward g code b).late = g.late := rfl

theorem setComments_late (g : Grades) (code : String) (c : String) :
    (setComments g code c).late = g.late := rfl

theorem lookup_set_self (g : Grades) (sc : String) (b : Bool) (c : String) :
    lookupA (setComments (setAward g sc b) sc c).records sc
      = some { award := b, comments := c } := by
  simp [setAward, setComments, getRecord, lookupA_updateA_self]

theorem lookup_set_ne (g : Grades) (sc : String) (b : Bool) (c : String)
    (sc2 : String) (h : sc ≠ sc2) :
    lookupA (setComments (setAward g sc b) sc c).records sc2
      = lookupA g.records sc2 := by
  simp [setAward, setComments, lookupA_updateA_ne _ _ _ _ h]

theorem lookup_set_changed (g : Grades) (sc : String) (b : Bool) (c : String)
    (sc2 : String)
    (h : lookupA (setComments (setAward g sc b) sc c).records sc2
          ≠ lookupA g.records sc2) : sc2 = sc := by
  by_contra hne
  exact h (lookup_set_ne g sc b c sc2 fun he => hne he.symm)

/-! ### Lemmas about the autograde application loop -/

theorem applyAutogrades_late (code : String) :
    ∀ (ag : List (String × String)) (i : Nat) (g : Grades),
      (applyAutogrades code i ag g).late = g.late
  | [], _, _ => rfl
  | (a, c) :: rest, i, g => by
    simp only [applyAutogrades]
    rw [applyAutogrades_late code rest (i + 1) _]
    rfl

theorem applyAutogrades_frame (code : String) :
    ∀ (ag : List (String × String)) (i k : Nat) (g : Grades), k < i →
      lookupA (applyAutogrades code i ag g).records (subCode code k)
        = lookupA g.records (subCode code k)
  | [], _, _, _, _ => rfl
  | (a, c) :: rest, i, k, g, hk => by
    simp only [applyAutogrades]
    rw [applyAutogrades_frame code rest (i + 1) k _ (Nat.lt_succ_of_lt hk)]
    exact lookup_set_ne g (subCode code i) _ _ (subCode code k)
      (subCode_ne code fun he => Nat.lt_irrefl k (he ▸ hk))

theorem applyAutogrades_get (code : String) :
    ∀ (ag : List (String × String)) (i j : Nat) (a c : String) (g : Grades),
      ag.get? j = some (a, c) →
      lookupA (applyAutogrades code i ag g).records (subCode code (i + j))
        = some { award := a == "y", comments := c }
  | [], _, j, _, _, _, h => by simp [List.get?] at h
  | (a0, c0) :: rest, i, 0, a, c, g, h => by
    simp only [List.get?] at h
    injection h with h2
    injection h2 with ha hc
    subst ha; subst hc
    simp only [applyAutogrades, Nat.add_zero]
    rw [applyAutogrades_frame code rest (i + 1) i _ (Nat.lt_succ_self i)]
    exact lookup_set_self g (subCode code i) _ _
  | (a0, c0) :: rest, i, j + 1, a, c, g, h => by
    simp only [List.get?] at h
    have h2 : i + (j + 1) = (i + 1) + j := by omega
    rw [h2]
    simp only [applyAutogrades]
    exact applyAutogrades_get code rest (i + 1) j a c _ h

theorem applyAutogrades_changed (code : String) :
    ∀ (ag : List (String × String)) (i : Nat) (g : Grades) (sc : String),
      lookupA (applyAutogrades code i ag g).records sc ≠ lookupA g.records sc →
      ∃ j, i ≤ j ∧ j < i + ag.length ∧ sc = subCode code j
  | [], _, _, _, h => absurd rfl h
  | (a0, c0) :: rest, i, g, sc, h => by
    by_cases hmid : lookupA (applyAutogrades code (i + 1) rest
        (setComments (setAward g (subCode code i) (a0 == "y")) (subCode code i) c0)).records sc
        = lookupA (setComments (setAward g (subCode code i) (a0 == "y"))
            (subCode code i) c0).records sc
    · have hbase : lookupA (setComments (setAward g (subCode code i) (a0 == "y"))
          (subCode code i) c0).records sc ≠ lookupA g.records sc := by
        intro he
        apply h
        simp only [applyAutogrades]
        rw [hmid, he]
      have hsc := lookup_set_changed g (subCode code i) _ _ sc hbase
      exact ⟨i, Nat.le_refl i, by simp [List.length], hsc⟩
    · obtain ⟨j, hj1, hj2, hj3⟩ :=
        applyAutogrades_changed code rest (i + 1) _ sc hmid
    -- the recursive call writes only keys of index at least i + 1
      exact ⟨j, Nat.le_of_succ_le hj1, by simpa [List.length, Nat.add_comm,
        Nat.add_assoc, Nat.add_left_comm] using hj2, hj3⟩

/-! ### Lemmas about the interactive prompting loop -/

theorem read_award_spec :
    ∀ (l : List String) (a : String), read_award l = some a →
      (a = "y" ∨ a = "n") ∧ ∃ x ∈ l, a = pyLower (pyStrip x)
  | [], a, h => by simp [read_award] at h
  | s :: rest, a, h => by
    by_cases hc : pyLower (pyStrip s) = "y" ∨ pyLower (pyStrip s) = "n"
    · have hb : (pyLower (pyStrip s) = "y" || pyLower (pyStrip s) = "n") = true := by
        rcases hc with hc | hc <;> simp [hc]
      have ha : a = pyLower (pyStrip s) := by
        simp only [read_award, hb, if_true] at h
        injection h with h2
        exact h2.symm
      refine ⟨by rw [ha]; exact hc, s, List.mem_cons_self s rest, ha⟩
    · have hb : (pyLower (pyStrip s) = "y" || pyLower (pyStrip s) = "n") = false := by
        push_neg at hc
        simp [hc.1, hc.2]
      have h2 : read_award rest = some a := by
        simpa only [read_award, hb, Bool.false_eq_true, if_false] using h
      obtain ⟨hyn, x, hx, he⟩ := read_award_spec rest a h2
      exact ⟨hyn, x, List.mem_cons_of_mem s hx, he⟩

theorem prompt_subitems_late (code : String) :
    ∀ (subs : List (Int × String)) (i : Nat) (ins : List (List String × String))
      (g : Grades) (tr : List Event) (g2 : Grades),
      outGrades (prompt_subitems code i subs ins g tr) = some g2 → g2.late = g.late
  | [], _, _, g, _, g2, h => by
    simp only [prompt_subitems, outGrades] at h
    injection h with h2
    rw [← h2]
  | _ :: _, _, [], _, _, _, h => by simp [prompt_subitems, outGrades] at h
  | _ :: subs, i, (attempts, com) :: ins, g, tr, g2, h => by
    simp only [prompt_subitems] at h
    cases hr : read_award attempts with
    | none => rw [hr] at h; simp [outGrades] at h
    | some a =>
      rw [hr] at h
      have := prompt_subitems_late code subs (i + 1) ins _ _ g2 h
      rw [this]
      rfl

theorem prompt_subitems_frame (code : String) :
    ∀ (subs : List (Int × String)) (i : Nat) (ins : List (List String × String))
      (g : Grades) (tr : List Event) (g2 : Grades) (tr2 : List Event) (k : Nat),
      prompt_subitems code i subs ins g tr = .ok (g2, tr2) → k < i →
      lookupA g2.records (subCode code k) = lookupA g.records (subCode code k)
  | [], _, _, g, _, g2, _, k, h, _ => by
    simp only [prompt_subitems] at h
    injection h with h2
    injection h2 with h3 h4
    rw [← h3]
  | _ :: _, _, [], _, _, _, _, _, h, _ => by simp [prompt_subitems] at h
  | _ :: subs, i, (attempts, com) :: ins, g, tr, g2, tr2, k, h, hk => by
    simp only [prompt_subitems] at h
    cases hr : read_award attempts with
    | none => rw [hr] at h; simp at h
    | some a =>
      rw [hr] at h
      rw [prompt_subitems_frame code subs (i + 1) ins _ _ g2 tr2 k h
        (Nat.lt_succ_of_lt hk)]
      exact lookup_set_ne g (subCode code i) _ _ (subCode code k)
        (subCode_ne code fun he => Nat.lt_irrefl k (he ▸ hk))

theorem prompt_subitems_get (code : String) :
    ∀ (subs : List (Int × String)) (i : Nat) (ins : List (List String × String))
      (g : Grades) (tr : List Event) (g2 : Grades) (tr2 : List Event) (j : Nat)
      (attempts : List String) (com : String),
      prompt_subitems code i subs ins g tr = .ok (g2, tr2) →
      ins.get? j = some (attempts, com) → j < subs.length →
      ∃ ans, read_award attempts = some ans ∧ (ans = "y" ∨ ans = "n") ∧
        lookupA g2.records (subCode code (i + j))
          = some { award := ans == "y", comments := pyStrip com }
  | [], _, _, _, _, _, _, j, _, _, _, _, hj => by simp at hj
  | _ :: _, _, [], _, _, _, _, j, _, _, h, _, _ => by simp [prompt_subitems] at h
  | _ :: subs, i, (attempts0, com0) :: ins, g, tr, g2, tr2, 0, attempts, com,
      h, hins, hj => by
    simp only [List.get?] at hins
    injection hins with h2
    injection h2 with ha hc
    rw [← ha, ← hc]
    simp only [prompt_subitems] at h
    cases hr : read_award attempts0 with
    | none => rw [hr] at h; simp at h
    | some a =>
      rw [hr] at h
      refine ⟨a, rfl, (read_award_spec attempts0 a hr).1, ?_⟩
      rw [Nat.add_zero,
        prompt_subitems_frame code subs (i + 1) ins _ _ g2 tr2 i h
          (Nat.lt_succ_self i)]
      exact lookup_set_self g (subCode code i) _ _
  | _ :: subs, i, (attempts0, com0) :: ins, g, tr, g2, tr2, j + 1, attempts, com,
      h, hins, hj => by
    simp only [List.get?] at hins
    simp only [prompt_subitems] at h
    cases hr : read_award attempts0 with
    | none => rw [hr] at h; simp at h
    | some a =>
      rw [hr] at h
      have h2 : i + (j + 1) = (i + 1) + j := by omega
      rw [h2]
      exact prompt_subitems_get code subs (i + 1) ins _ _ g2 tr2 j attempts com h
        hins (by simpa using Nat.lt_of_succ_lt_succ hj)

/-! ### Late-flag preservation through prompting and dispatch -/

theorem prompt_grade_late {γ : Type} (item : RubricItem γ)
    (ag : Option (List (String × String))) (ta : List (List String × String))
    (g : Grades) (tr : List Event) (g2 : Grades)
    (h : outGrades (prompt_grade item ag ta g tr) = some g2) : g2.late = g.late := by
  cases ag with
  | none => exact prompt_subitems_late item.code item.subitems 1 ta g tr g2 h
  | some l =>
    simp only [prompt_grade] at h
    split at h
    · exact prompt_subitems_late item.code item.subitems 1 ta g tr g2 h
    · split at h
      · simp only [outGrades] at h
        injection h with h2
        rw [← h2]
      · simp only [outGrades] at h
        injection h with h2
        rw [← h2]
        exact applyAutogrades_late item.code l 1 g

theorem pgDispatch_late {γ : Type} (item : RubricItem γ) (v : PyVal γ)
    (ta : List (List String × String)) (g : Grades) (tr : List Event) (g2 : Grades)
    (h : outGrades (pgDispatch item v ta g tr) = some g2) : g2.late = g.late := by
  cases v with
  | pynone => exact prompt_grade_late item none ta g tr g2 h
  | pylist l => exact prompt_grade_late item (some l) ta g tr g2 h
  | pyother x =>
    simp only [pgDispatch, outGrades] at h
    injection h with h2
    rw [← h2]

theorem liftPG_outcomeGrades {γ : Type} (st : GraderState γ)
    (o : Outcome (Grades × List Event)) :
    outcomeGrades (liftPG st o) = outGrades o := by
  cases o with
  | ok p => cases p; rfl
  | err m p => cases p; rfl
  | hang => rfl

/-! ### Concrete fixtures used by witnesses and counterexamples -/

/-- Default run mode: no test-only, no grade-only, no regrade. -/
def envD : EnvFlags := { test_only := false, grade_only := false, regrade := false }

/-- An empty grade store. -/
def gradesEmpty : Grades := { records := [], late := false }

/-- A fresh session state over an empty store. -/
def stEmpty : GraderState Nat :=
  { grades := gradesEmpty, gradables := [], trace := [] }

/-- An item whose tester returns one aligned autograde pair. -/
def itemAuto : RubricItem Nat :=
  { code := "A1", deduct_from := none, subitems := [(5, "auto part")],
    tester := PyFun.ret (PyVal.pylist [("y", "auto")]), pretester := none }

/-- An item whose tester raises. -/
def itemRaise : RubricItem Nat :=
  { code := "A1", deduct_from := none, subitems := [(5, "manual part")],
    tester := PyFun.raises, pretester := none }

/-- An item graded by the interactive fallback tester. -/
def itemManual : RubricItem Nat :=
  { code := "B1", deduct_from := none, subitems := [(3, "manual part")],
    tester := PyFun.defaultGrader, pretester := none }

/-- A rubric with the three empty tables A, B and C. -/
def rubricABC : List (String × RubricVal Nat) :=
  [("A", RubricVal.table []), ("B", RubricVal.table []), ("C", RubricVal.table [])]

/-- A late oracle that never reports late. -/
def latefD : String → Bool := fun _ => false

/-- An empty TA input oracle. -/
def tafD : String → List (List String × String) := fun _ => []

/-! ### Claim theorems -/

/-- C1: for every rubric item, when test-only mode is off, regrade mode is off
and every subitem already has a grade record, `grade_item` skips the item: it
returns the state unchanged, so no tester runs (the trace is unchanged) and no
grade record, comment or late flag is written. -/
theorem claim1_idempotent_skip {γ : Type} (env : EnvFlags) (pregrade : Bool)
    (item : RubricItem γ) (l : Bool) (ta : List (List String × String))
    (st : GraderState γ)
    (h1 : env.test_only = false) (h2 : env.regrade = false)
    (h3 : ∀ k, k < item.subitems.length →
      is_graded st.grades (subCode item.code (k + 1)) = true) :
    grade_item env pregrade item l ta st = .ok st := by
  have hs : should_skip_item env st.grades item = true := by
    simp only [should_skip_item, h1, h2, Bool.not_false, Bool.true_and]
    rw [List.all_eq_true]
    intro k hk
    exact h3 k (List.mem_range.1 hk)
  simp [grade_item, hs]

/-- A session state in which subitem A1.1 already has a grade record. -/
def stGraded : GraderState Nat :=
  { grades := { records := [("A1.1", { award := true, comments := "done" })], late := false },
    gradables := [], trace := [] }

/-- Witness for C1 at a fully graded one-subitem item in default mode. -/
theorem claim1_witness :
    grade_item envD false itemRaise true [] stGraded = Outcome.ok stGraded :=
  claim1_idempotent_skip envD false itemRaise true [] stGraded rfl rfl (by decide)

/-- C2 (amended): when the tester of a non-skipped item raises in default
mode, the exception is caught and the session is not aborted, and no autograde
from the failing attempt is applied; but the item is not left ungraded —
processing continues with the late check and interactive prompting for that
same item. -/
theorem claim2_tester_raises {γ : Type} (env : EnvFlags) (item : RubricItem γ)
    (l : Bool) (ta : List (List String × String)) (st : GraderState γ)
    (hskip : should_skip_item env st.grades item = false)
    (ht : item.tester = PyFun.raises)
    (hgo : env.grade_only = false) (hto : env.test_only = false) :
    grade_item env false item l ta st
      = liftPG st (prompt_grade item none ta
          (if l then set_late st.grades true else st.grades)
          (st.trace ++ [Event.testerRun item.code])) := by
  simp [grade_item, run_tests, run_and_prompt, runFun, pgDispatch, hskip, ht, hgo, hto]

/-- Witness for C2: a raising tester in default mode falls through to the
interactive path. -/
theorem claim2_witness :
    grade_item envD false itemRaise false [(["y"], " manual ")] stEmpty
      = liftPG stEmpty (prompt_grade itemRaise none [(["y"], " manual ")]
          (if false then set_late stEmpty.grades true else stEmpty.grades)
          (stEmpty.trace ++ [Event.testerRun itemRaise.code])) :=
  claim2_tester_raises envD itemRaise false [(["y"], " manual ")] stEmpty
    (by decide) rfl rfl rfl

/-- Counterexample to C2 as stated: with a raising tester in default mode and
a TA answering the fallback prompt, a grade record for the item is written in
the same invocation, so the item is not left ungraded. -/
theorem claim2_counterexample :
    (match grade_item envD false itemRaise false [(["y"], " manual ")] stEmpty with
     | Outcome.ok st2 => is_graded st2.grades "A1.1"
     | _ => false) = true := by decide

/-- C3 (amended): when a tester returns a nonempty autograde list whose length
differs from the item's subitem count, `prompt_grade` raises the alignment
error and the store is exactly as before the attempt. -/
theorem claim3_alignment {γ : Type} (item : RubricItem γ)
    (ag : List (String × String)) (ta : List (List String × String))
    (g : Grades) (tr : List Event)
    (hne : ag ≠ []) (hlen : ag.length ≠ item.subitems.length) :
    prompt_grade item (some ag) ta g tr
      = Outcome.err "Autogrades do not align with rubric item!" (g, tr) := by
  have he : ag.isEmpty = false := by
    cases ag with
    | nil => exact absurd rfl hne
    | cons x xs => rfl
  simp [prompt_grade, he, hlen]

/-- Witness for C3: two autograde pairs against a one-subitem item error out
with the store untouched. -/
theorem claim3_witness :
    prompt_grade itemManual (some [("y", "a"), ("n", "b")]) [] gradesEmpty []
      = Outcome.err "Autogrades do not align with rubric item!" (gradesEmpty, []) :=
  claim3_alignment itemManual [("y", "a"), ("n", "b")] [] gradesEmpty []
    (by decide) (by decide)

/-- Counterexample to C3 as stated: an autograde result of zero pairs against
a one-subitem item (N = 0 ≠ M = 1) does not fail — the empty list is falsy,
so the interactive path runs and a grade record is written. -/
theorem claim3_counterexample :
    (match prompt_grade itemManual (some []) [(["y"], "fine")] gradesEmpty [] with
     | Outcome.ok p => is_graded p.1 "B1.1"
     | _ => false) = true := by decide

/-- C6: one `grade_item` call updates the late flag exactly by ORing in the
late-check result, and only on the non-skipped, non-pregrade, non-test-only
path; so `set_late` is only ever invoked with `true`, a non-late finding
leaves the flag unchanged, and the flag is monotone across the session. -/
theorem claim6_late_monotone {γ : Type} (env : EnvFlags) (pregrade : Bool)
    (item : RubricItem γ) (l : Bool) (ta : List (List String × String))
    (st : GraderState γ) (g2 : Grades)
    (h : outcomeGrades (grade_item env pregrade item l ta st) = some g2) :
    g2.late = (st.grades.late
      || (!should_skip_item env st.grades item && !pregrade && !env.test_only && l)) := by
  by_cases hs : should_skip_item env st.grades item = true
  · simp only [grade_item, hs, if_true, outcomeGrades] at h
    injection h with h2
    rw [← h2, hs]
    simp
  · have hs2 : should_skip_item env st.grades item = false := by
      revert hs; cases should_skip_item env st.grades item <;> simp
    cases hp : pregrade with
    | true =>
      simp only [grade_item, hs2, Bool.false_eq_true, if_false, hp, if_true,
        outcomeGrades] at h
      injection h with h2
      rw [← h2]
      simp [collect_gradables]
    | false =>
      cases ht : env.test_only with
      | true =>
        simp only [grade_item, hs2, Bool.false_eq_true, if_false, hp, ht,
          Bool.not_true, outcomeGrades] at h
        injection h with h2
        rw [← h2]
        simp
      | false =>
        simp only [grade_item, hs2, Bool.false_eq_true, if_false, hp, ht,
          Bool.not_false, if_true] at h
        rw [liftPG_outcomeGrades] at h
        have hlate := pgDispatch_late item _ ta _ _ g2 h
        rw [hlate]
        cases l with
        | true => simp [set_late, hs2, ht]
        | false => simp

/-- Witness for C6: a late finding on an autograded item sets the flag. -/
theorem claim6_witness :
    ({ records := [("A1.1", { award := true, comments := "auto" })], late := true } : Grades).late
      = (stEmpty.grades.late
        || (!should_skip_item envD stEmpty.grades itemAuto && !false && !envD.test_only && true)) :=
  claim6_late_monotone envD false itemAuto true [] stEmpty
    { records := [("A1.1", { award := true, comments := "auto" })], late := true }
    (by decide)

/-- C8: in a pregrade pass over a non-skipped item (grade-only off), the
pretester's result is cached in the gradables map keyed by the item code,
processing of the item ends there, and no prompt is issued and no grade
record or late flag is written (the grade store is untouched). -/
theorem claim8_pregrade_caches {γ : Type} (env : EnvFlags) (item : RubricItem γ)
    (l : Bool) (ta : List (List String × String)) (st : GraderState γ)
    (pf : PyFun γ) (v : PyVal γ)
    (hgo : env.grade_only = false)
    (hskip : should_skip_item env st.grades item = false)
    (hpre : item.pretester = some pf)
    (hrun : runFun pf = Except.ok v) :
    grade_item env true item l ta st
      = Outcome.ok
          { st with
            gradables := updateA st.gradables item.code (some v),
            trace := st.trace ++ [Event.pretesterRun item.code] } := by
  simp [grade_item, run_tests, run_and_prompt, collect_gradables, hskip, hgo, hpre, hrun]

/-- Witness for C8 with a pretester returning the artifact 42. -/
theorem claim8_witness :
    grade_item envD true
      { code := "C1", deduct_from := none, subitems := [(2, "build")],
        tester := PyFun.defaultGrader, pretester := some (PyFun.ret (PyVal.pyother 42)) }
      true [] stEmpty
      = Outcome.ok
          { stEmpty with
            gradables := updateA stEmpty.gradables "C1" (some (PyVal.pyother 42)),
            trace := stEmpty.trace ++ [Event.pretesterRun "C1"] } :=
  claim8_pregrade_caches envD
    { code := "C1", deduct_from := none, subitems := [(2, "build")],
      tester := PyFun.defaultGrader, pretester := some (PyFun.ret (PyVal.pyother 42)) }
    true [] stEmpty (PyFun.ret (PyVal.pyother 42)) (PyVal.pyother 42)
    rfl (by decide) rfl rfl

/-- C7: a requested rubric code naming a table that is not in the rubric, or
an item that is not in its (valid) table, makes `grade` fail with the scope
error before any grading: the returned state is exactly the input state, so
no tester ran (trace unchanged) and no grade record or late flag was
written. -/
theorem claim7_scope_error {γ : Type} (env : EnvFlags)
    (rubric : List (String × RubricVal γ)) (key : String) (pregrade : Bool)
    (latef : String → Bool) (taf : String → List (List String × String))
    (st : GraderState γ)
    (hall : ¬ pyLower key = "all")
    (h : (pyIsAlpha key = true ∧ hasTable rubric (pyUpper key) = false)
       ∨ (pyIsAlpha key = false ∧ ∃ c rest, key.data = c :: rest ∧
            (hasTable rubric (pyUpper (String.mk [c])) = false
             ∨ ∃ ks, itemKeys rubric (pyUpper (String.mk [c])) = some ks ∧
                 ks.contains (pyUpper key) = false))) :
    ∃ m, grade env rubric key pregrade latef taf st = .err m st := by
  rcases h with ⟨ha, htb⟩ | ⟨ha, c, rest, hdata, h2⟩
  · exact ⟨"ValueError: hw does not have table " ++ pyUpper key,
      by simp [grade, hall, ha, htb]⟩
  · rcases h2 with htb | ⟨ks, hks, hcon⟩
    · exact ⟨"ValueError: hw does not have table " ++ pyUpper (String.mk [c]),
        by simp [grade, hall, ha, String.toList, hdata, htb]⟩
    · cases hlk : lookupA rubric (pyUpper (String.mk [c])) with
      | none => simp [itemKeys, hlk] at hks
      | some rv =>
        cases rv with
        | policy v => simp [itemKeys, hlk] at hks
        | table t =>
          have hks2 : ks = t.map Prod.fst := by
            simp only [itemKeys, hlk] at hks
            injection hks with h3
            exact h3.symm
          have hcon2 : (t.map Prod.fst).contains (pyUpper key) = false := hks2 ▸ hcon
          refine ⟨"ValueError: hw does not have rubric item " ++ pyUpper key, ?_⟩
          simp [grade, hall, ha, String.toList, hdata, hasTable, itemKeys,
            hlk, hcon2]
          intro x hx
          exfalso
          have hmem : pyUpper key ∈ List.map Prod.fst t :=
            List.mem_map.2 ⟨(pyUpper key, x), hx, rfl⟩
          have h4 : (List.map Prod.fst t).contains (pyUpper key) = true :=
            List.elem_eq_true_of_mem hmem
          rw [hcon2] at h4
          exact Bool.false_ne_true h4

/-- Witness for C7: requesting "Z9" against tables A, B, C errors out with
the session state untouched. -/
theorem claim7_witness :
    ∃ m, grade envD rubricABC "Z9" false latefD tafD stEmpty = .err m stEmpty :=
  claim7_scope_error envD rubricABC "Z9" false latefD tafD stEmpty (by decide)
    (Or.inr ⟨by decide, 'Z', ['9'], by decide, Or.inl (by decide)⟩)

/-- Counterexample to C4 as stated: a rubric entry stored under table-item
key "A1" whose `name` field is "B7" produces a `RubricItem` with code "B7",
and autograding it writes grade-record key "B7.1" — not "A1.1" derived from
the storage key K. -/
theorem claim4_counterexample :
    (match create_rubric (γ := Nat) { attrs := [] }
        [("A", JVal.jtable [("A1",
          { name := "B7", deducting_from := none, points_per_subitem := [4],
            desc_per_subitem := ["part"] })])] with
     | Except.ok r =>
       match lookupA r "A" with
       | some (RubricVal.table t) =>
         match lookupA t "A1" with
         | some it =>
           match prompt_grade it (some [("y", "ok")]) [] gradesEmpty [] with
           | Outcome.ok p => is_graded p.1 "B7.1" && !(is_graded p.1 "A1.1")
           | _ => false
         | none => false
       | _ => false
     | _ => false) = true := by decide

/-- C4 (amended): the per-subitem grade keys are derived deterministically as
`code ++ "." ++ N` (1-indexed) from the item's `code`, which `create_rubric`
takes from the entry's `name` field — not necessarily from the storage key —
and the autograde path reads and writes no key outside that family; distinct
items collide exactly when their `name` fields collide, which construction
does not forbid. -/
theorem claim4_subitem_keys {γ : Type} (hw : HWObj γ) (k ik : String)
    (e : RubricEntry) (ag : List (String × String)) (g : Grades) (sc : String)
    (hk : k ≠ "late_penalty") :
    (create_rubric hw [(k, JVal.jtable [(ik, e)])]
        = Except.ok [(k, RubricVal.table [(ik, buildItem hw ik e)])])
    ∧ (buildItem hw ik e).code = e.name
    ∧ (lookupA (applyAutogrades e.name 1 ag g).records sc ≠ lookupA g.records sc →
        ∃ j, 1 ≤ j ∧ j ≤ ag.length ∧ sc = subCode e.name j) := by
  refine ⟨?_, rfl, ?_⟩
  · simp [create_rubric, create_rubric_aux, hk, addItems, lookupA, updateA]
  · intro h
    obtain ⟨j, hj1, hj2, hj3⟩ := applyAutogrades_changed e.name ag 1 g sc h
    exact ⟨j, hj1, by omega, hj3⟩

/-- Witness for the amended C4 on a one-entry rubric. -/
theorem claim4_witness :
    (create_rubric (γ := Nat) { attrs := [] }
        [("A", JVal.jtable [("A1",
          { name := "B7", deducting_from := none, points_per_subitem := [4],
            desc_per_subitem := ["part"] })])]
        = Except.ok [("A", RubricVal.table [("A1", buildItem { attrs := [] } "A1"
            { name := "B7", deducting_from := none, points_per_subitem := [4],
              desc_per_subitem := ["part"] })])])
    ∧ (buildItem (γ := Nat) { attrs := [] } "A1"
        { name := "B7", deducting_from := none, points_per_subitem := [4],
          desc_per_subitem := ["part"] }).code = "B7"
    ∧ (lookupA (applyAutogrades "B7" 1 [("y", "ok")] gradesEmpty).records "X.1"
          ≠ lookupA gradesEmpty.records "X.1" →
        ∃ j, 1 ≤ j ∧ j ≤ ([("y", "ok")] : List (String × String)).length
          ∧ "X.1" = subCode "B7" j) :=
  claim4_subitem_keys { attrs := [] } "A" "A1"
    { name := "B7", deducting_from := none, points_per_subitem := [4],
      desc_per_subitem := ["part"] }
    [("y", "ok")] gradesEmpty "X.1" (by decide)

/-- Counterexample to C5 as stated: a table entry whose point and description
arrays have lengths 2 and 1 loads successfully — `zip` silently truncates to
the shorter length instead of failing with a ConfigError. -/
theorem claim5_counterexample :
    create_rubric (γ := Nat) { attrs := [] }
      [("A", JVal.jtable [("A1",
        { name := "A1", deducting_from := none, points_per_subitem := [1, 2],
          desc_per_subitem := ["only"] })])]
    = Except.ok [("A", RubricVal.table [("A1",
        { code := "A1", deduct_from := none, subitems := [(1, "only")],
          tester := PyFun.defaultGrader, pretester := none })])] := rfl

/-- C5 (amended): rubric loading performs no length check on the per-subitem
arrays; the built item's subitems are their `zip`, whose length is the
minimum of the two array lengths, and loading succeeds. -/
theorem claim5_zip_truncates {γ : Type} (hw : HWObj γ) (k ik : String)
    (e : RubricEntry) (hk : k ≠ "late_penalty") :
    (create_rubric hw [(k, JVal.jtable [(ik, e)])]
        = Except.ok [(k, RubricVal.table [(ik, buildItem hw ik e)])])
    ∧ (buildItem hw ik e).subitems = e.points_per_subitem.zip e.desc_per_subitem
    ∧ (buildItem hw ik e).subitems.length
        = min e.points_per_subitem.length e.desc_per_subitem.length := by
  refine ⟨?_, rfl, ?_⟩
  · simp [create_rubric, create_rubric_aux, hk, addItems, lookupA, updateA]
  · simp [buildItem]

/-- Witness for the amended C5 on the mismatched-lengths entry. -/
theorem claim5_witness :
    (create_rubric (γ := Nat) { attrs := [] }
        [("B", JVal.jtable [("B1",
          { name := "B1", deducting_from := none, points_per_subitem := [1, 2],
            desc_per_subitem := ["d"] })])]
        = Except.ok [("B", RubricVal.table [("B1", buildItem { attrs := [] } "B1"
            { name := "B1", deducting_from := none, points_per_subitem := [1, 2],
              desc_per_subitem := ["d"] })])])
    ∧ (buildItem (γ := Nat) { attrs := [] } "B1"
        { name := "B1", deducting_from := none, points_per_subitem := [1, 2],
          desc_per_subitem := ["d"] }).subitems
        = ([1, 2] : List Int).zip ["d"]
    ∧ (buildItem (γ := Nat) { attrs := [] } "B1"
        { name := "B1", deducting_from := none, points_per_subitem := [1, 2],
          desc_per_subitem := ["d"] }).subitems.length
        = min ([1, 2] : List Int).length (["d"] : List String).length :=
  claim5_zip_truncates { attrs := [] } "B" "B1"
    { name := "B1", deducting_from := none, points_per_subitem := [1, 2],
      desc_per_subitem := ["d"] } (by decide)

/-- C9: rubric construction binds the tester for item key X to the method
named exactly "grade_" ++ X when the homework object has one, and to the
default interactive-shell fallback otherwise; the pretester is bound to the
method named exactly "pre_grade_" ++ X when present and to none otherwise;
an absent method is never an error (loading still succeeds). -/
theorem claim9_binding {γ : Type} (hw : HWObj γ) (k ik : String) (e : RubricEntry)
    (hk : k ≠ "late_penalty") :
    (create_rubric hw [(k, JVal.jtable [(ik, e)])]
        = Except.ok [(k, RubricVal.table [(ik, buildItem hw ik e)])])
    ∧ (∀ f, lookupA hw.attrs ("grade_" ++ ik) = some f →
        (buildItem hw ik e).tester = f)
    ∧ (lookupA hw.attrs ("grade_" ++ ik) = none →
        (buildItem hw ik e).tester = PyFun.defaultGrader)
    ∧ (∀ f, lookupA hw.attrs ("pre_grade_" ++ ik) = some f →
        (buildItem hw ik e).pretester = some f)
    ∧ (lookupA hw.attrs ("pre_grade_" ++ ik) = none →
        (buildItem hw ik e).pretester = none) := by
  refine ⟨?_, ?_, ?_, ?_, ?_⟩
  · simp [create_rubric, create_rubric_aux, hk, addItems, lookupA, updateA]
  · intro f hf; simp [buildItem, hf]
  · intro hf; simp [buildItem, hf]
  · intro f hf; simp [buildItem, hf]
  · intro hf; simp [buildItem, hf]

/-- A homework object with exactly one bound method, `grade_D1`. -/
def hwD1 : HWObj Nat := { attrs := [("grade_D1", PyFun.raises)] }

/-- A one-subitem rubric entry named D1. -/
def entryD1 : RubricEntry :=
  { name := "D1", deducting_from := none, points_per_subitem := [1],
    desc_per_subitem := ["d"] }

/-- Witness for C9: an object with a grade method but no pre-grade method for
item D1 gets that method as tester and no pretester. -/
theorem claim9_witness :
    (create_rubric hwD1 [("D", JVal.jtable [("D1", entryD1)])]
        = Except.ok [("D", RubricVal.table [("D1", buildItem hwD1 "D1" entryD1)])])
    ∧ (∀ f, lookupA hwD1.attrs ("grade_" ++ "D1") = some f →
        (buildItem hwD1 "D1" entryD1).tester = f)
    ∧ (lookupA hwD1.attrs ("grade_" ++ "D1") = none →
        (buildItem hwD1 "D1" entryD1).tester = PyFun.defaultGrader)
    ∧ (∀ f, lookupA hwD1.attrs ("pre_grade_" ++ "D1") = some f →
        (buildItem hwD1 "D1" entryD1).pretester = some f)
    ∧ (lookupA hwD1.attrs ("pre_grade_" ++ "D1") = none →
        (buildItem hwD1 "D1" entryD1).pretester = none) :=
  claim9_binding hwD1 "D" "D1" entryD1 (by decide)

/-- C10: applying an aligned autograde result stores, for the j-th pair
(0-based j, key `code.(j+1)`), award true iff the award flag equals the
string "y" (any other string, e.g. "Y", gives false) with the comment stored
verbatim; on the interactive path the answer is accepted only once its
stripped, lowercased form is "y" or "n", award is true iff that answer is
"y", and the comment is stored stripped. -/
theorem claim10_award_semantics {γ : Type} (item : RubricItem γ)
    (ag : List (String × String)) (ta : List (List String × String))
    (g : Grades) (tr : List Event) (g2 g3 : Grades) (tr2 tr3 : List Event)
    (j : Nat) (a c : String) (attempts : List String) (com : String) :
    (prompt_grade item (some ag) ta g tr = .ok (g2, tr2) →
      ag.get? j = some (a, c) →
      lookupA g2.records (subCode item.code (j + 1))
        = some { award := a == "y", comments := c })
    ∧ (prompt_grade item none ta g tr = .ok (g3, tr3) →
      ta.get? j = some (attempts, com) → j < item.subitems.length →
      ∃ ans, read_award attempts = some ans ∧ (ans = "y" ∨ ans = "n") ∧
        lookupA g3.records (subCode item.code (j + 1))
          = some { award := ans == "y", comments := pyStrip com })
    ∧ (∀ (l : List String) (ans : String), read_award l = some ans →
        (ans = "y" ∨ ans = "n") ∧ ∃ x ∈ l, ans = pyLower (pyStrip x)) := by
  refine ⟨?_, ?_, read_award_spec⟩
  · intro hp hget
    cases hag : ag with
    | nil => rw [hag] at hget; simp at hget
    | cons x xs =>
      subst hag
      simp only [prompt_grade, List.isEmpty_cons, Bool.false_eq_true, if_false] at hp
      by_cases hl : (x :: xs).length = item.subitems.length
      · have hl2 : ¬((x :: xs).length ≠ item.subitems.length) := by simpa using hl
        rw [if_neg hl2] at hp
        injection hp with hpair
        injection hpair with hg ht2
        rw [← hg, Nat.add_comm j 1]
        exact applyAutogrades_get item.code (x :: xs) 1 j a c g hget
      · rw [if_pos (by simpa using hl)] at hp
        cases hp
  · intro hp hget hj
    obtain ⟨ans, h3, h4, h5⟩ :=
      prompt_subitems_get item.code item.subitems 1 ta g tr g3 tr3 j attempts com
        hp hget hj
    rw [Nat.add_comm 1 j] at h5
    exact ⟨ans, h3, h4, h5⟩

/-- The store after autograding A1.1 with award true and comment "auto". -/
def gAuto : Grades :=
  { records := [("A1.1", { award := true, comments := "auto" })], late := false }

/-- The store after interactively awarding A1.1 with comment "ok". -/
def gOk : Grades :=
  { records := [("A1.1", { award := true, comments := "ok" })], late := false }

/-- Witness for C10: the "y" flag of a one-pair autograde result stores award
true with the comment verbatim; and an interactive answer " Y " is stripped
and lowercased to "y" before being stored with the stripped comment. -/
theorem claim10_witness :
    (lookupA gAuto.records (subCode itemAuto.code (0 + 1))
        = some { award := "y" == "y", comments := "auto" })
    ∧ (∃ ans, read_award [" Y "] = some ans ∧ (ans = "y" ∨ ans = "n") ∧
        lookupA gOk.records (subCode itemAuto.code (0 + 1))
          = some { award := ans == "y", comments := pyStrip " ok " }) :=
  ⟨(claim10_award_semantics itemAuto [("y", "auto")] [([" Y "], " ok ")]
      gradesEmpty [] gAuto gOk [] [Event.prompted "A1.1"] 0 "y" "auto"
      [" Y "] " ok ").1 (by decide) (by decide),
   (claim10_award_semantics itemAuto [("y", "auto")] [([" Y "], " ok ")]
      gradesEmpty [] gAuto gOk [] [Event.prompted "A1.1"] 0 "y" "auto"
      [" Y "] " ok ").2.1 (by decide) (by decide) (by decide)⟩

end Pygrader
